import Mathlib

/-!
# The S3 log store of `api/logs/s3/s3.go`

A shallow embedding of package `s3`: the constructor `New`, the key mapping
`path` and the two operations `InsertLog` and `GetLog`.

* A Go `string` is a Lean `String`; the only separator the package looks for is
  the one-byte character `/`, which never occurs inside a multi-byte UTF-8
  sequence, so splitting by characters and splitting by bytes agree.
* The packages the store consumes (`net/url`, `strings`, `errors`, `minio-go`)
  are not part of the repository.  `strings.SplitN`, `errors.New`,
  `Userinfo.Username`, `Userinfo.Password` and `Values.Get` are written out from
  their library definitions; `url.Parse` and `minio.New` are parameters
  (`Env`), and a `minio.Client` is the record of its four methods used here,
  each a transition on the state `σ` of the remote service.
* Every call into package `minio` is recorded, in order, in `World.calls`, so
  that "which calls were made, with which arguments" is observable.
-/

/-- A Go `error` value (non-nil), observed through its `Error()` text. -/
structure GoError where
  Error : String
deriving DecidableEq, Repr

/-- Go `errors.New(text)`. -/
def errors.New (text : String) : GoError := ⟨text⟩

/-- First occurrence of `sep` in `s`: the text before it and the text after it
(Go `strings.Index(s, sep)` together with the two slices `s[:m]` and
`s[m+len(sep):]` that `genSplit` takes), or `none` when `sep` does not occur. -/
def strings.cut (sep : List Char) : List Char → Option (List Char × List Char)
  | [] => if sep = [] then some ([], []) else none
  | c :: t =>
    if sep.isPrefixOf (c :: t) then some ([], (c :: t).drop sep.length)
    else match strings.cut sep t with
      | some (a, b) => some (c :: a, b)
      | none => none

/-- Go `strings.SplitN(s, sep, n)` on character lists, for a non-empty `sep`
and `n ≥ 0`: at most `n` substrings, the last one being the unsplit remainder;
`n = 0` gives the empty (nil) slice. -/
def strings.splitN (s sep : List Char) : Nat → List (List Char)
  | 0 => []
  | 1 => [s]
  | n + 2 =>
    match strings.cut sep s with
    | none => [s]
    | some (a, b) => a :: strings.splitN b sep (n + 1)

/-- Go `strings.SplitN(s, sep, n)` for a non-empty `sep` and `n ≥ 0`. -/
def strings.SplitN (s sep : String) (n : Nat) : List String :=
  (strings.splitN s.data sep.data n).map String.mk

/-- Go `strings.Contains(s, substr)`. -/
def strings.Contains (s substr : String) : Bool := decide (substr.data <:+: s.data)

/-- A Go `io.Reader`, modelled by the finite byte sequence it yields from its
current position until EOF. -/
abbrev io.Reader := List (Fin 256)

/-- A Go `context.Context`; the store only forwards it to the client.
`cancelled` tells whether it is already cancelled or past its deadline. -/
structure context.Context where
  cancelled : Bool
deriving DecidableEq, Repr

namespace url

/-- Go `url.Userinfo`: user name and optional password of a URL. -/
structure Userinfo where
  username : String
  password : String
  passwordSet : Bool
deriving DecidableEq, Repr

/-- Go `(*Userinfo).Username()`; the receiver may be nil. -/
def Userinfo.Username : Option Userinfo → String
  | none => ""
  | some u => u.username

/-- Go `(*Userinfo).Password()`; the receiver may be nil. -/
def Userinfo.Password : Option Userinfo → String × Bool
  | none => ("", false)
  | some u => (u.password, u.passwordSet)

/-- Go `url.Values`, a `map[string][]string`; a key that is not in the map
reads as the empty (nil) slice. -/
abbrev Values := String → List String

/-- Go `Values.Get(key)`: the first value of `key`, or `""` if there is none. -/
def Values.Get (v : Values) (key : String) : String :=
  match v key with
  | [] => ""
  | x :: _ => x

/-- The fields and methods of a parsed Go `url.URL` that `New` reads; `Query`
is what the method `u.Query()` returns. -/
structure URL where
  Scheme : String
  User : Option Userinfo
  Host : String
  Path : String
  Query : Values

end url

namespace minio

/-- Go `minio.PutObjectOptions`; the store sets `ContentType` and leaves every
other field at its zero value. -/
structure PutObjectOptions where
  ContentType : String
deriving DecidableEq, Repr

/-- Go `minio.GetObjectOptions{}`, the zero value. -/
structure GetObjectOptions where
deriving DecidableEq, Repr

/-- The methods of a `*minio.Client` that the store calls.  Each one is a
transition on the state `σ` of the remote service and returns what the Go
method returns (`none` is the nil error, the nil reader). -/
structure Client (σ : Type) where
  MakeBucket : (bucketName location : String) → σ → Option GoError × σ
  BucketExists : (bucketName : String) → σ → (Bool × Option GoError) × σ
  PutObjectWithContext : context.Context → (bucketName objectName : String) →
    io.Reader → (objectSize : Int) → PutObjectOptions → σ → (Int × Option GoError) × σ
  GetObjectWithContext : context.Context → (bucketName objectName : String) →
    GetObjectOptions → σ → (Option io.Reader × Option GoError) × σ

/-- A call into package `minio`, with its arguments. -/
inductive Call where
  | New (endpoint accessKeyID secretAccessKey : String) (secure : Bool)
  | MakeBucket (bucketName location : String)
  | BucketExists (bucketName : String)
  | PutObjectWithContext (ctx : context.Context) (bucketName objectName : String)
      (reader : io.Reader) (objectSize : Int) (opts : PutObjectOptions)
  | GetObjectWithContext (ctx : context.Context) (bucketName objectName : String)
      (opts : GetObjectOptions)
deriving DecidableEq, Repr

end minio

/-- What lies outside the store: the state of the remote service and the
calls made into package `minio` so far, oldest first. -/
structure World (σ : Type) where
  remote : σ
  calls : List minio.Call

/-- Append one call to the record. -/
def World.record {σ : Type} (w : World σ) (c : minio.Call) : World σ :=
  ⟨w.remote, w.calls ++ [c]⟩

/-- The call `client.MakeBucket(bucketName, location)`. -/
def World.MakeBucket {σ : Type} (client : minio.Client σ) (bucketName location : String)
    (w : World σ) : Option GoError × World σ :=
  let r := client.MakeBucket bucketName location w.remote
  (r.1, ⟨r.2, w.calls ++ [minio.Call.MakeBucket bucketName location]⟩)

/-- The call `client.BucketExists(bucketName)`. -/
def World.BucketExists {σ : Type} (client : minio.Client σ) (bucketName : String)
    (w : World σ) : (Bool × Option GoError) × World σ :=
  let r := client.BucketExists bucketName w.remote
  (r.1, ⟨r.2, w.calls ++ [minio.Call.BucketExists bucketName]⟩)

/-- The call `client.PutObjectWithContext(ctx, bucketName, objectName, reader,
objectSize, opts)`. -/
def World.PutObjectWithContext {σ : Type} (client : minio.Client σ) (ctx : context.Context)
    (bucketName objectName : String) (reader : io.Reader) (objectSize : Int)
    (opts : minio.PutObjectOptions) (w : World σ) : (Int × Option GoError) × World σ :=
  let r := client.PutObjectWithContext ctx bucketName objectName reader objectSize opts w.remote
  (r.1, ⟨r.2, w.calls ++
    [minio.Call.PutObjectWithContext ctx bucketName objectName reader objectSize opts]⟩)

/-- The call `client.GetObjectWithContext(ctx, bucketName, objectName, opts)`. -/
def World.GetObjectWithContext {σ : Type} (client : minio.Client σ) (ctx : context.Context)
    (bucketName objectName : String) (opts : minio.GetObjectOptions) (w : World σ) :
    (Option io.Reader × Option GoError) × World σ :=
  let r := client.GetObjectWithContext ctx bucketName objectName opts w.remote
  (r.1, ⟨r.2, w.calls ++ [minio.Call.GetObjectWithContext ctx bucketName objectName opts]⟩)

namespace s3

/-- The constant `contentType`. -/
def contentType : String := "text/plain"

/-- The struct `store`. -/
structure store (σ : Type) where
  client : minio.Client σ
  bucket : String

/-- The two library functions `New` calls that are taken as given:
`url.Parse` and `minio.New` (which only builds the client value). -/
structure Env (σ : Type) where
  url_Parse : String → Except GoError url.URL
  minio_New : (endpoint accessKeyID secretAccessKey : String) → (secure : Bool) →
    Except GoError (minio.Client σ)

/-- The function `New(uri string) (models.LogStore, error)`: `.error err` is
the Go result `nil, err` and `.ok s` is `&store, nil`.  The pattern
`location :: bucketName :: _` is `strs[0]`, `strs[1]` under `len(strs) >= 2`. -/
def New {σ : Type} (env : Env σ) (uri : String) (w : World σ) :
    Except GoError (store σ) × World σ :=
  match env.url_Parse uri with
  | .error err => (.error err, w)
  | .ok u =>
    let endpoint := u.Host
    let accessKeyID := url.Userinfo.Username u.User
    let secretAccessKey := (url.Userinfo.Password u.User).1
    let useSSL := decide (url.Values.Get u.Query "ssl" = "true")
    match strings.SplitN u.Path "/" 2 with
    | location :: bucketName :: _ =>
      if location = "" then
        (.error (errors.New "must provide non-empty location in path of s3 api url. e.g. s3://s3.com/us-east-1/my_bucket"), w)
      else if bucketName = "" then
        (.error (errors.New "must provide non-empty bucket name in path of s3 api url. e.g. s3://s3.com/us-east-1/my_bucket"), w)
      else
        let w1 := w.record (minio.Call.New endpoint accessKeyID secretAccessKey useSSL)
        match env.minio_New endpoint accessKeyID secretAccessKey useSSL with
        | .error err => (.error err, w1)
        | .ok client =>
          -- ensure the bucket exists, creating if it does not
          let r := World.MakeBucket client bucketName location w1
          match r.1 with
          | some _ =>
            let r2 := World.BucketExists client bucketName r.2
            match r2.1.2 with
            | some err => (.error err, r2.2)
            | none =>
              if !r2.1.1 then
                (.error (errors.New "could not create bucket and bucket does not exist, please check permissions"), r2.2)
              else (.ok ⟨client, bucketName⟩, r2.2)
          | none => (.ok ⟨client, bucketName⟩, r.2)
    | _ =>
      (.error (errors.New "must provide bucket name and region in path of s3 api url. e.g. s3://s3.com/us-east-1/my_bucket"), w)

/-- The function `path(appName, callID string) string`. -/
def path (appName callID : String) : String :=
  "/" ++ appName ++ "/" ++ callID

/-- The method `(s *store) InsertLog(ctx, appName, callID, callLog) error`. -/
def store.InsertLog {σ : Type} (s : store σ) (ctx : context.Context) (appName callID : String)
    (callLog : io.Reader) (w : World σ) : Option GoError × World σ :=
  let objectName := path appName callID
  let r := World.PutObjectWithContext s.client ctx s.bucket objectName callLog (-1)
    { ContentType := contentType } w
  (r.1.2, r.2)

/-- The method `(s *store) GetLog(ctx, appName, callID) (io.Reader, error)`. -/
def store.GetLog {σ : Type} (s : store σ) (ctx : context.Context) (appName callID : String)
    (w : World σ) : (Option io.Reader × Option GoError) × World σ :=
  let objectName := path appName callID
  World.GetObjectWithContext s.client ctx s.bucket objectName {} w

end s3

/-! ## Stand-ins for the external collaborators, used to run the store -/

namespace fake

/-- Modelled from the spec: the S3-compatible service behind the client (an
external collaborator, not in the repository), as the set of buckets created
so far and a map from (bucket, object key) to the stored bytes. -/
structure ObjectStore where
  buckets : List String
  objects : String → String → Option (List (Fin 256))

/-- The service with no bucket and no object. -/
def ObjectStore.empty : ObjectStore := ⟨[], fun _ _ => none⟩

/-- Modelled from the spec: a client of that service.  Creating a bucket fails
when the bucket is already there, the existence check answers from the set of
buckets, a put always succeeds and overwrites the object at the key with the
whole stream, and a get returns the stored bytes from offset 0 or a not-found
error. -/
def client : minio.Client ObjectStore where
  MakeBucket := fun bucketName _ st =>
    if bucketName ∈ st.buckets then
      (some ⟨"Your previous request to create the named bucket succeeded and you already own it."⟩, st)
    else (none, ⟨bucketName :: st.buckets, st.objects⟩)
  BucketExists := fun bucketName st => ((decide (bucketName ∈ st.buckets), none), st)
  PutObjectWithContext := fun _ bucketName objectName reader _ _ st =>
    ((reader.length, none),
      ⟨st.buckets, fun b k => if b = bucketName ∧ k = objectName then some reader else st.objects b k⟩)
  GetObjectWithContext := fun _ bucketName objectName _ st =>
    match st.objects bucketName objectName with
    | some bytes => ((some bytes, none), st)
    | none => ((none, some ⟨"The specified key does not exist."⟩), st)

/-- A client without state whose `MakeBucket` and `BucketExists` give the two
fixed answers `mk` and `ex`. -/
def canned (mk : Option GoError) (ex : Bool × Option GoError) : minio.Client Unit where
  MakeBucket := fun _ _ st => (mk, st)
  BucketExists := fun _ st => (ex, st)
  PutObjectWithContext := fun _ _ _ _ _ _ st => ((0, none), st)
  GetObjectWithContext := fun _ _ _ _ st =>
    ((none, some ⟨"The specified key does not exist."⟩), st)

/-- The query `?ssl=true`. -/
def sslTrue : url.Values := fun key => if key = "ssl" then ["true"] else []

/-- The empty query. -/
def noQuery : url.Values := fun _ => []

/-- What Go `url.Parse` returns on a handful of URIs (a URI with an authority
`//host` has an empty path or one that starts with `/`; a URI without scheme
and authority is all path up to the `?`). -/
def Parse (uri : String) : Except GoError url.URL :=
  if uri = "s3://access_key_id:secret_access_key@host/us-east-1/my_bucket?ssl=true" then
    .ok ⟨"s3", some ⟨"access_key_id", "secret_access_key", true⟩, "host",
      "/us-east-1/my_bucket", sslTrue⟩
  else if uri = "s3://s3.com/us-east-1/my_bucket" then
    .ok ⟨"s3", none, "s3.com", "/us-east-1/my_bucket", noQuery⟩
  else if uri = "s3://host/us-east-1" then
    .ok ⟨"s3", none, "host", "/us-east-1", noQuery⟩
  else if uri = "s3://host//mybucket" then
    .ok ⟨"s3", none, "host", "//mybucket", noQuery⟩
  else if uri = "s3://host" then
    .ok ⟨"s3", none, "host", "", noQuery⟩
  else if uri = "us-east-1/my_bucket?ssl=true" then
    .ok ⟨"", none, "", "us-east-1/my_bucket", sslTrue⟩
  else if uri = "us-east-1/" then
    .ok ⟨"", none, "", "us-east-1/", noQuery⟩
  else
    .error ⟨"parse: URI not tabulated"⟩

/-- An environment: the table above for `url.Parse`, and a `minio.New` that
accepts every endpoint and returns `c`. -/
def env {σ : Type} (c : minio.Client σ) : s3.Env σ := ⟨Parse, fun _ _ _ _ => .ok c⟩

end fake

/-! ## Library facts about splitting at `/` -/

theorem strings.cut_slash_none {s : List Char} (h : '/' ∉ s) :
    strings.cut ['/'] s = none := by
  induction s with
  | nil => simp [strings.cut]
  | cons c t ih =>
    have hc : ¬ '/' = c := fun e => h (List.mem_cons.2 (Or.inl e))
    have ht : '/' ∉ t := fun e => h (List.mem_cons.2 (Or.inr e))
    simp [strings.cut, List.isPrefixOf, hc, ih ht]

theorem strings.cut_slash_append {a : List Char} (b : List Char) (h : '/' ∉ a) :
    strings.cut ['/'] (a ++ '/' :: b) = some (a, b) := by
  induction a with
  | nil => simp [strings.cut, List.isPrefixOf]
  | cons c t ih =>
    have hc : ¬ '/' = c := fun e => h (List.mem_cons.2 (Or.inl e))
    have ht : '/' ∉ t := fun e => h (List.mem_cons.2 (Or.inr e))
    simp [strings.cut, List.isPrefixOf, hc, ih ht]

theorem strings.slash_decomp (s : List Char) :
    '/' ∉ s ∨ ∃ a b, '/' ∉ a ∧ s = a ++ '/' :: b := by
  induction s with
  | nil => left; simp
  | cons c t ih =>
    by_cases hc : c = '/'
    · right; exact ⟨[], t, by simp, by simp [hc]⟩
    · rcases ih with ht | ⟨a, b, ha, rfl⟩
      · left
        intro hm
        rcases List.mem_cons.1 hm with e | e
        · exact hc e.symm
        · exact ht e
      · right
        refine ⟨c :: a, b, ?_, by simp⟩
        intro hm
        rcases List.mem_cons.1 hm with e | e
        · exact hc e.symm
        · exact ha e

theorem strings.SplitN_two_none {p : String} (h : '/' ∉ p.data) :
    strings.SplitN p "/" 2 = [p] := by
  have h1 : ("/" : String).data = ['/'] := rfl
  simp [strings.SplitN, strings.splitN, h1, strings.cut_slash_none h]

theorem strings.SplitN_two_some (loc rest : String) (h : '/' ∉ loc.data) :
    strings.SplitN (loc ++ "/" ++ rest) "/" 2 = [loc, rest] := by
  have h1 : ("/" : String).data = ['/'] := rfl
  have h2 : (loc ++ "/" ++ rest).data = loc.data ++ '/' :: rest.data := by
    simp [String.data_append, h1]
  simp [strings.SplitN, strings.splitN, h1, h2, strings.cut_slash_append _ h]

theorem strings.append_slash_inj {a a' b b' : List Char} (ha : '/' ∉ a) (ha' : '/' ∉ a')
    (h : a ++ '/' :: b = a' ++ '/' :: b') : a = a' ∧ b = b' := by
  have h1 := strings.cut_slash_append b ha
  rw [h, strings.cut_slash_append b' ha'] at h1
  simpa [eq_comm] using h1

theorem strings.data_slash (loc rest : String) :
    (loc ++ "/" ++ rest).data = loc.data ++ '/' :: rest.data := by
  have h1 : ("/" : String).data = ['/'] := rfl
  simp [String.data_append, h1]

/-- A path either has no `/` or is `loc ++ "/" ++ rest` with no `/` in `loc`. -/
theorem strings.path_cases (p : String) :
    '/' ∉ p.data ∨ ∃ loc rest : String, p = loc ++ "/" ++ rest ∧ '/' ∉ loc.data := by
  rcases strings.slash_decomp p.data with h | ⟨a, b, ha, hab⟩
  · exact Or.inl h
  · refine Or.inr ⟨⟨a⟩, ⟨b⟩, ?_, ha⟩
    apply String.ext
    rw [strings.data_slash, hab]

theorem strings.Contains_of_infix {s substr : String} (h : substr.data <:+: s.data) :
    strings.Contains s substr = true := by
  simp [strings.Contains, h]

namespace s3

/-! ## How `New` goes, by the shape of the path -/

theorem New_of_no_slash {σ : Type} (env : Env σ) (uri : String) (u : url.URL) (w : World σ)
    (hp : env.url_Parse uri = .ok u) (h : '/' ∉ u.Path.data) :
    New env uri w = (.error (errors.New "must provide bucket name and region in path of s3 api url. e.g. s3://s3.com/us-east-1/my_bucket"), w) := by
  simp [New, hp, strings.SplitN_two_none h]

theorem New_of_slash {σ : Type} (env : Env σ) (uri : String) (u : url.URL) (w : World σ)
    (loc rest : String) (hp : env.url_Parse uri = .ok u)
    (hpath : u.Path = loc ++ "/" ++ rest) (h : '/' ∉ loc.data) :
    New env uri w =
      if loc = "" then
        (.error (errors.New "must provide non-empty location in path of s3 api url. e.g. s3://s3.com/us-east-1/my_bucket"), w)
      else if rest = "" then
        (.error (errors.New "must provide non-empty bucket name in path of s3 api url. e.g. s3://s3.com/us-east-1/my_bucket"), w)
      else
        match env.minio_New u.Host (url.Userinfo.Username u.User) (url.Userinfo.Password u.User).1
            (decide (url.Values.Get u.Query "ssl" = "true")) with
        | .error err => (.error err, w.record (minio.Call.New u.Host (url.Userinfo.Username u.User)
            (url.Userinfo.Password u.User).1 (decide (url.Values.Get u.Query "ssl" = "true"))))
        | .ok client =>
          let w1 := w.record (minio.Call.New u.Host (url.Userinfo.Username u.User)
            (url.Userinfo.Password u.User).1 (decide (url.Values.Get u.Query "ssl" = "true")))
          let r := World.MakeBucket client rest loc w1
          match r.1 with
          | some _ =>
            let r2 := World.BucketExists client rest r.2
            match r2.1.2 with
            | some err => (.error err, r2.2)
            | none =>
              if !r2.1.1 then
                (.error (errors.New "could not create bucket and bucket does not exist, please check permissions"), r2.2)
              else (.ok ⟨client, rest⟩, r2.2)
          | none => (.ok ⟨client, rest⟩, r.2) := by
  simp only [New, hp, hpath, strings.SplitN_two_some loc rest h]

theorem New_of_leading_slash {σ : Type} (env : Env σ) (uri : String) (u : url.URL) (w : World σ)
    (hp : env.url_Parse uri = .ok u) (h : u.Path.data.head? = some '/') :
    New env uri w = (.error (errors.New "must provide non-empty location in path of s3 api url. e.g. s3://s3.com/us-east-1/my_bucket"), w) := by
  have hpath : u.Path = "" ++ "/" ++ ⟨u.Path.data.tail⟩ := by
    apply String.ext
    rw [strings.data_slash]
    cases hd : u.Path.data with
    | nil => simp [hd] at h
    | cons c t =>
      simp [hd] at h
      subst h
      rfl
  rw [New_of_slash env uri u w "" _ hp hpath (by simp)]
  simp

theorem New_of_documented_shape {σ : Type} (env : Env σ) (uri : String) (u : url.URL)
    (w : World σ) (location bucketName : String) (hp : env.url_Parse uri = .ok u)
    (hpath : u.Path = "/" ++ location ++ "/" ++ bucketName) :
    New env uri w = (.error (errors.New "must provide non-empty location in path of s3 api url. e.g. s3://s3.com/us-east-1/my_bucket"), w) := by
  apply New_of_leading_slash env uri u w hp
  rw [hpath]
  rfl

theorem New_of_accepted {σ : Type} (env : Env σ) (uri : String) (u : url.URL) (w : World σ)
    (loc rest : String) (hp : env.url_Parse uri = .ok u)
    (hpath : u.Path = loc ++ "/" ++ rest) (h : '/' ∉ loc.data) (hl : loc ≠ "") (hr : rest ≠ "") :
    New env uri w =
      match env.minio_New u.Host (url.Userinfo.Username u.User) (url.Userinfo.Password u.User).1
          (decide (url.Values.Get u.Query "ssl" = "true")) with
      | .error err => (.error err, w.record (minio.Call.New u.Host (url.Userinfo.Username u.User)
          (url.Userinfo.Password u.User).1 (decide (url.Values.Get u.Query "ssl" = "true"))))
      | .ok client =>
        let w1 := w.record (minio.Call.New u.Host (url.Userinfo.Username u.User)
          (url.Userinfo.Password u.User).1 (decide (url.Values.Get u.Query "ssl" = "true")))
        let r := World.MakeBucket client rest loc w1
        match r.1 with
        | some _ =>
          let r2 := World.BucketExists client rest r.2
          match r2.1.2 with
          | some err => (.error err, r2.2)
          | none =>
            if !r2.1.1 then
              (.error (errors.New "could not create bucket and bucket does not exist, please check permissions"), r2.2)
            else (.ok ⟨client, rest⟩, r2.2)
        | none => (.ok ⟨client, rest⟩, r.2) := by
  rw [New_of_slash env uri u w loc rest hp hpath h, if_neg hl, if_neg hr]

/-- The calls `New` has made once the path is accepted: the client
construction, then at most `MakeBucket` and `BucketExists`. -/
theorem New_calls_of_accepted {σ : Type} (env : Env σ) (uri : String) (u : url.URL)
    (w : World σ) (loc rest : String) (hp : env.url_Parse uri = .ok u)
    (hpath : u.Path = loc ++ "/" ++ rest) (h : '/' ∉ loc.data) (hl : loc ≠ "") (hr : rest ≠ "") :
    ∃ more, (New env uri w).2.calls =
      w.calls ++ minio.Call.New u.Host (url.Userinfo.Username u.User)
        (url.Userinfo.Password u.User).1 (decide (url.Values.Get u.Query "ssl" = "true")) :: more ∧
      (more = [] ∨ more = [minio.Call.MakeBucket rest loc] ∨
        more = [minio.Call.MakeBucket rest loc, minio.Call.BucketExists rest]) := by
  rw [New_of_accepted env uri u w loc rest hp hpath h hl hr]
  cases env.minio_New u.Host (url.Userinfo.Username u.User) (url.Userinfo.Password u.User).1
      (decide (url.Values.Get u.Query "ssl" = "true")) with
  | error err => exact ⟨[], by simp [World.record]⟩
  | ok client =>
    simp only [World.MakeBucket, World.BucketExists, World.record]
    split
    · split
      · exact ⟨[minio.Call.MakeBucket rest loc, minio.Call.BucketExists rest], by simp⟩
      · split
        · exact ⟨[minio.Call.MakeBucket rest loc, minio.Call.BucketExists rest], by simp⟩
        · exact ⟨[minio.Call.MakeBucket rest loc, minio.Call.BucketExists rest], by simp⟩
    · exact ⟨[minio.Call.MakeBucket rest loc], by simp⟩

theorem Values_Get_eq_true (v : url.Values) (key : String) :
    url.Values.Get v key = "true" ↔ (v key).head? = some "true" := by
  unfold url.Values.Get
  cases v key with
  | nil => simp
  | cons x t => simp

theorem not_accepted_of_leading_slash {p : String} (h : p.data.head? = some '/') :
    ¬ ∃ location bucketName : String, location ≠ "" ∧ bucketName ≠ "" ∧
      '/' ∉ location.data ∧ p = location ++ "/" ++ bucketName := by
  rintro ⟨location, bucketName, hl, -, hs, rfl⟩
  rw [strings.data_slash] at h
  cases hd : location.data with
  | nil => exact hl (String.ext hd)
  | cons c t =>
    rw [hd] at h hs
    simp at h
    exact hs (by simp [h])

theorem not_accepted_of_no_slash {p : String} (h : '/' ∉ p.data) :
    ¬ ∃ location bucketName : String, location ≠ "" ∧ bucketName ≠ "" ∧
      '/' ∉ location.data ∧ p = location ++ "/" ++ bucketName := by
  rintro ⟨location, bucketName, -, -, -, rfl⟩
  rw [strings.data_slash] at h
  exact h (by simp)

/-- C1, the code run on URIs of the documented shape: on
`s3://access_key_id:secret_access_key@host/us-east-1/my_bucket?ssl=true`, whose
path is `/us-east-1/my_bucket`, and on the URL that the error messages
themselves give as the example, `New` returns the error "must provide non-empty
location ..." and no store, without building a client or requesting a bucket,
although the client would have accepted both requests. -/
theorem New_rejects_documented_uri :
    New (fake.env fake.client)
        "s3://access_key_id:secret_access_key@host/us-east-1/my_bucket?ssl=true"
        ⟨fake.ObjectStore.empty, []⟩ =
      (.error (errors.New "must provide non-empty location in path of s3 api url. e.g. s3://s3.com/us-east-1/my_bucket"),
        ⟨fake.ObjectStore.empty, []⟩) ∧
    New (fake.env fake.client) "s3://s3.com/us-east-1/my_bucket" ⟨fake.ObjectStore.empty, []⟩ =
      (.error (errors.New "must provide non-empty location in path of s3 api url. e.g. s3://s3.com/us-east-1/my_bucket"),
        ⟨fake.ObjectStore.empty, []⟩) :=
  ⟨New_of_documented_shape (fake.env fake.client) _
      ⟨"s3", some ⟨"access_key_id", "secret_access_key", true⟩, "host", "/us-east-1/my_bucket",
        fake.sslTrue⟩ _ "us-east-1" "my_bucket" (by rfl) (by decide),
    New_of_documented_shape (fake.env fake.client) _
      ⟨"s3", none, "s3.com", "/us-east-1/my_bucket", fake.noQuery⟩ _ "us-east-1" "my_bucket"
      (by rfl) (by decide)⟩

/-- C2: when the path of the parsed URI is not a non-empty location without `/`,
then `/`, then a non-empty bucket name (so one of the two is missing or empty;
this holds of every path that is empty or begins with `/`), `New` returns an
error and no store, makes no call to the client whatever the client would
answer, and the error message contains `s3://s3.com/us-east-1/my_bucket`. -/
theorem New_rejects_incomplete_path {σ : Type} (env : Env σ) (uri : String) (u : url.URL)
    (w : World σ) (hp : env.url_Parse uri = .ok u)
    (h : ¬ ∃ location bucketName : String, location ≠ "" ∧ bucketName ≠ "" ∧
      '/' ∉ location.data ∧ u.Path = location ++ "/" ++ bucketName) :
    ∃ err : GoError, New env uri w = (.error err, w) ∧
      strings.Contains err.Error "s3://s3.com/us-east-1/my_bucket" = true := by
  rcases strings.path_cases u.Path with hn | ⟨loc, rest, hpath, hs⟩
  · refine ⟨_, New_of_no_slash env uri u w hp hn, ?_⟩
    exact strings.Contains_of_infix
      ⟨"must provide bucket name and region in path of s3 api url. e.g. ".data, [], by decide⟩
  · rw [New_of_slash env uri u w loc rest hp hpath hs]
    by_cases hl : loc = ""
    · rw [if_pos hl]
      exact ⟨_, rfl, strings.Contains_of_infix
        ⟨"must provide non-empty location in path of s3 api url. e.g. ".data, [], by decide⟩⟩
    · by_cases hr : rest = ""
      · rw [if_neg hl, if_pos hr]
        exact ⟨_, rfl, strings.Contains_of_infix
          ⟨"must provide non-empty bucket name in path of s3 api url. e.g. ".data, [], by decide⟩⟩
      · exact absurd ⟨loc, rest, hl, hr, hs, hpath⟩ h

/-- C2 at `s3://host/us-east-1` (no bucket segment), `s3://host//mybucket`
(empty location segment) and `s3://host` (no path), with a client that would
have answered every call. -/
theorem New_rejects_incomplete_path_witness :
    (∃ err : GoError, New (fake.env fake.client) "s3://host/us-east-1"
        ⟨fake.ObjectStore.empty, []⟩ = (.error err, ⟨fake.ObjectStore.empty, []⟩) ∧
      strings.Contains err.Error "s3://s3.com/us-east-1/my_bucket" = true) ∧
    (∃ err : GoError, New (fake.env fake.client) "s3://host//mybucket"
        ⟨fake.ObjectStore.empty, []⟩ = (.error err, ⟨fake.ObjectStore.empty, []⟩) ∧
      strings.Contains err.Error "s3://s3.com/us-east-1/my_bucket" = true) ∧
    (∃ err : GoError, New (fake.env fake.client) "s3://host"
        ⟨fake.ObjectStore.empty, []⟩ = (.error err, ⟨fake.ObjectStore.empty, []⟩) ∧
      strings.Contains err.Error "s3://s3.com/us-east-1/my_bucket" = true) :=
  ⟨New_rejects_incomplete_path (fake.env fake.client) "s3://host/us-east-1"
      ⟨"s3", none, "host", "/us-east-1", fake.noQuery⟩ _ (by rfl)
      (not_accepted_of_leading_slash (by decide)),
    New_rejects_incomplete_path (fake.env fake.client) "s3://host//mybucket"
      ⟨"s3", none, "host", "//mybucket", fake.noQuery⟩ _ (by rfl)
      (not_accepted_of_leading_slash (by decide)),
    New_rejects_incomplete_path (fake.env fake.client) "s3://host"
      ⟨"s3", none, "host", "", fake.noQuery⟩ _ (by rfl)
      (not_accepted_of_no_slash (by decide))⟩

/-- C9: for a parsed URI with path `p`, `New` goes on to build the client
exactly when `p` is `loc ++ "/" ++ rest` with no `/` in `loc` (the text before
the first `/`) and both `loc` and `rest` non-empty; it then takes `loc` as the
location and all of `rest`, further `/` included, as the bucket name.  Every
path that begins with `/` gets the error "must provide non-empty location ...",
every path without `/` gets "must provide bucket name and region ...", and the
error "must provide non-empty bucket name ..." is the result of the path check
exactly for the paths `loc ++ "/"` with `loc` non-empty and free of `/`. -/
theorem New_path_split {σ : Type} (env : Env σ) (uri : String) (u : url.URL) (w : World σ)
    (hp : env.url_Parse uri = .ok u) :
    ((New env uri w).2.calls ≠ w.calls ↔
      ∃ loc rest : String, u.Path = loc ++ "/" ++ rest ∧ '/' ∉ loc.data ∧ loc ≠ "" ∧ rest ≠ "") ∧
    (∀ loc rest : String, u.Path = loc ++ "/" ++ rest → '/' ∉ loc.data → loc ≠ "" → rest ≠ "" →
      ∀ client : minio.Client σ,
        env.minio_New u.Host (url.Userinfo.Username u.User) (url.Userinfo.Password u.User).1
          (decide (url.Values.Get u.Query "ssl" = "true")) = .ok client →
        (∃ more, (New env uri w).2.calls =
          w.calls ++ minio.Call.New u.Host (url.Userinfo.Username u.User)
            (url.Userinfo.Password u.User).1 (decide (url.Values.Get u.Query "ssl" = "true")) ::
            minio.Call.MakeBucket rest loc :: more) ∧
        ∀ s : store σ, (New env uri w).1 = .ok s → s.bucket = rest) ∧
    (u.Path.data.head? = some '/' →
      New env uri w = (.error (errors.New "must provide non-empty location in path of s3 api url. e.g. s3://s3.com/us-east-1/my_bucket"), w)) ∧
    ('/' ∉ u.Path.data →
      New env uri w = (.error (errors.New "must provide bucket name and region in path of s3 api url. e.g. s3://s3.com/us-east-1/my_bucket"), w)) ∧
    (New env uri w = (.error (errors.New "must provide non-empty bucket name in path of s3 api url. e.g. s3://s3.com/us-east-1/my_bucket"), w) ↔
      ∃ loc : String, u.Path = loc ++ "/" ∧ loc ≠ "" ∧ '/' ∉ loc.data) := by
  refine ⟨?_, ?_, New_of_leading_slash env uri u w hp, New_of_no_slash env uri u w hp, ?_⟩
  · constructor
    · intro hc
      rcases strings.path_cases u.Path with hn | ⟨loc, rest, hpath, hs⟩
      · rw [New_of_no_slash env uri u w hp hn] at hc
        exact absurd rfl hc
      · by_cases hl : loc = ""
        · rw [New_of_slash env uri u w loc rest hp hpath hs, if_pos hl] at hc
          exact absurd rfl hc
        · by_cases hr : rest = ""
          · rw [New_of_slash env uri u w loc rest hp hpath hs, if_neg hl, if_pos hr] at hc
            exact absurd rfl hc
          · exact ⟨loc, rest, hpath, hs, hl, hr⟩
    · rintro ⟨loc, rest, hpath, hs, hl, hr⟩
      obtain ⟨more, hm, -⟩ := New_calls_of_accepted env uri u w loc rest hp hpath hs hl hr
      rw [hm]
      intro hc
      have := congrArg List.length hc
      simp at this
  · intro loc rest hpath hs hl hr client hc
    rw [New_of_accepted env uri u w loc rest hp hpath hs hl hr, hc]
    simp only [World.MakeBucket, World.BucketExists, World.record]
    split
    · split
      · exact ⟨⟨[minio.Call.BucketExists rest], by simp⟩, by simp⟩
      · split
        · exact ⟨⟨[minio.Call.BucketExists rest], by simp⟩, by simp⟩
        · refine ⟨⟨[minio.Call.BucketExists rest], by simp⟩, ?_⟩
          intro s hs'
          simp at hs'
          rw [← hs']
    · refine ⟨⟨[], by simp⟩, ?_⟩
      intro s hs'
      simp at hs'
      rw [← hs']
  · constructor
    · intro hc
      rcases strings.path_cases u.Path with hn | ⟨loc, rest, hpath, hs⟩
      · rw [New_of_no_slash env uri u w hp hn] at hc
        exact absurd hc (by simp [errors.New])
      · by_cases hl : loc = ""
        · rw [New_of_slash env uri u w loc rest hp hpath hs, if_pos hl] at hc
          exact absurd hc (by simp [errors.New])
        · by_cases hr : rest = ""
          · refine ⟨loc, ?_, hl, hs⟩
            rw [hpath, hr]
            apply String.ext
            simp
          · obtain ⟨more, hm, -⟩ := New_calls_of_accepted env uri u w loc rest hp hpath hs hl hr
            rw [hc] at hm
            have := congrArg List.length hm
            simp at this
    · rintro ⟨loc, hpath, hl, hs⟩
      have hpath2 : u.Path = loc ++ "/" ++ "" := by
        rw [hpath]
        apply String.ext
        simp
      rw [New_of_slash env uri u w loc "" hp hpath2 hs, if_neg hl, if_pos rfl]

/-- C9 on four paths: `us-east-1/my_bucket` is accepted and the client is
called; `/us-east-1` (from `s3://host/us-east-1`) is rejected for its empty
location, the empty path (from `s3://host`) for lack of `/`, and `us-east-1/`
for its empty bucket name. -/
theorem New_path_split_witness :
    (New (fake.env fake.client) "us-east-1/my_bucket?ssl=true"
      ⟨fake.ObjectStore.empty, []⟩).2.calls ≠ [] ∧
    New (fake.env fake.client) "s3://host/us-east-1" ⟨fake.ObjectStore.empty, []⟩ =
      (.error (errors.New "must provide non-empty location in path of s3 api url. e.g. s3://s3.com/us-east-1/my_bucket"),
        ⟨fake.ObjectStore.empty, []⟩) ∧
    New (fake.env fake.client) "s3://host" ⟨fake.ObjectStore.empty, []⟩ =
      (.error (errors.New "must provide bucket name and region in path of s3 api url. e.g. s3://s3.com/us-east-1/my_bucket"),
        ⟨fake.ObjectStore.empty, []⟩) ∧
    New (fake.env fake.client) "us-east-1/" ⟨fake.ObjectStore.empty, []⟩ =
      (.error (errors.New "must provide non-empty bucket name in path of s3 api url. e.g. s3://s3.com/us-east-1/my_bucket"),
        ⟨fake.ObjectStore.empty, []⟩) :=
  ⟨(New_path_split (fake.env fake.client) "us-east-1/my_bucket?ssl=true"
      ⟨"", none, "", "us-east-1/my_bucket", fake.sslTrue⟩ ⟨fake.ObjectStore.empty, []⟩
      (by rfl)).1.2 ⟨"us-east-1", "my_bucket", by decide, by decide, by decide, by decide⟩,
    (New_path_split (fake.env fake.client) "s3://host/us-east-1"
      ⟨"s3", none, "host", "/us-east-1", fake.noQuery⟩ ⟨fake.ObjectStore.empty, []⟩
      (by rfl)).2.2.1 (by decide),
    (New_path_split (fake.env fake.client) "s3://host"
      ⟨"s3", none, "host", "", fake.noQuery⟩ ⟨fake.ObjectStore.empty, []⟩
      (by rfl)).2.2.2.1 (by decide),
    (New_path_split (fake.env fake.client) "us-east-1/"
      ⟨"", none, "", "us-east-1/", fake.noQuery⟩ ⟨fake.ObjectStore.empty, []⟩
      (by rfl)).2.2.2.2.2 ⟨"us-east-1", by decide, by decide, by decide⟩⟩

/-- C4: once the URI is parsed, its path accepted (`loc ++ "/" ++ bucketName`)
and the client built, the two answers of the client decide the outcome of
`New`.  `MakeBucket(bucketName, loc)` without error: the store, and
`BucketExists` is not called.  `MakeBucket` with an error and `BucketExists`
answering `(true, nil)`: the store.  `MakeBucket` with an error and
`BucketExists` with an error: that second error and no store.  `MakeBucket`
with an error and `BucketExists` answering `(false, nil)`: the error "could
not create bucket and bucket does not exist, please check permissions" and no
store. -/
theorem New_provisioning {σ : Type} (env : Env σ) (uri : String) (u : url.URL) (w : World σ)
    (loc bucketName : String) (client : minio.Client σ)
    (hp : env.url_Parse uri = .ok u)
    (hpath : u.Path = loc ++ "/" ++ bucketName) (hs : '/' ∉ loc.data)
    (hl : loc ≠ "") (hb : bucketName ≠ "")
    (hc : env.minio_New u.Host (url.Userinfo.Username u.User) (url.Userinfo.Password u.User).1
      (decide (url.Values.Get u.Query "ssl" = "true")) = .ok client)
    (mkErr : Option GoError) (st1 : σ)
    (hmk : client.MakeBucket bucketName loc w.remote = (mkErr, st1))
    (found : Bool) (exErr : Option GoError) (st2 : σ)
    (hex : client.BucketExists bucketName st1 = ((found, exErr), st2)) :
    (mkErr = none →
      New env uri w = (.ok ⟨client, bucketName⟩, ⟨st1, w.calls ++
        [minio.Call.New u.Host (url.Userinfo.Username u.User) (url.Userinfo.Password u.User).1
          (decide (url.Values.Get u.Query "ssl" = "true")),
         minio.Call.MakeBucket bucketName loc]⟩)) ∧
    (mkErr ≠ none → found = true → exErr = none →
      New env uri w = (.ok ⟨client, bucketName⟩, ⟨st2, w.calls ++
        [minio.Call.New u.Host (url.Userinfo.Username u.User) (url.Userinfo.Password u.User).1
          (decide (url.Values.Get u.Query "ssl" = "true")),
         minio.Call.MakeBucket bucketName loc, minio.Call.BucketExists bucketName]⟩)) ∧
    (mkErr ≠ none → ∀ err, exErr = some err →
      New env uri w = (.error err, ⟨st2, w.calls ++
        [minio.Call.New u.Host (url.Userinfo.Username u.User) (url.Userinfo.Password u.User).1
          (decide (url.Values.Get u.Query "ssl" = "true")),
         minio.Call.MakeBucket bucketName loc, minio.Call.BucketExists bucketName]⟩)) ∧
    (mkErr ≠ none → found = false → exErr = none →
      New env uri w = (.error (errors.New "could not create bucket and bucket does not exist, please check permissions"),
        ⟨st2, w.calls ++
        [minio.Call.New u.Host (url.Userinfo.Username u.User) (url.Userinfo.Password u.User).1
          (decide (url.Values.Get u.Query "ssl" = "true")),
         minio.Call.MakeBucket bucketName loc, minio.Call.BucketExists bucketName]⟩)) := by
  rw [New_of_accepted env uri u w loc bucketName hp hpath hs hl hb, hc]
  simp only [World.MakeBucket, World.BucketExists, World.record, hmk, hex]
  refine ⟨?_, ?_, ?_, ?_⟩
  · intro h
    subst h
    simp
  · intro h hf he
    subst hf he
    cases mkErr with
    | none => exact absurd rfl h
    | some e => simp
  · intro h err he
    subst he
    cases mkErr with
    | none => exact absurd rfl h
    | some e => simp
  · intro h hf he
    subst hf he
    cases mkErr with
    | none => exact absurd rfl h
    | some e => simp

/-- C4 run four times on `us-east-1/my_bucket?ssl=true`: against a service
without the bucket (it is created, `BucketExists` is not called); a second time
against the service that now has the bucket (creation fails, the bucket exists,
`New` succeeds); against a client whose creation and existence check both fail
(the error of the existence check comes back); and against a client whose
creation fails and that reports the bucket absent. -/
theorem New_provisioning_witness :
    New (fake.env fake.client) "us-east-1/my_bucket?ssl=true" ⟨fake.ObjectStore.empty, []⟩ =
      (.ok ⟨fake.client, "my_bucket"⟩, ⟨⟨["my_bucket"], fake.ObjectStore.empty.objects⟩,
        [minio.Call.New "" "" "" true, minio.Call.MakeBucket "my_bucket" "us-east-1"]⟩) ∧
    New (fake.env fake.client) "us-east-1/my_bucket?ssl=true"
        ⟨⟨["my_bucket"], fake.ObjectStore.empty.objects⟩, []⟩ =
      (.ok ⟨fake.client, "my_bucket"⟩, ⟨⟨["my_bucket"], fake.ObjectStore.empty.objects⟩,
        [minio.Call.New "" "" "" true, minio.Call.MakeBucket "my_bucket" "us-east-1",
          minio.Call.BucketExists "my_bucket"]⟩) ∧
    New (fake.env (fake.canned (some ⟨"Access Denied."⟩) (true, some ⟨"connection refused"⟩)))
        "us-east-1/my_bucket?ssl=true" ⟨(), []⟩ =
      (.error ⟨"connection refused"⟩, ⟨(),
        [minio.Call.New "" "" "" true, minio.Call.MakeBucket "my_bucket" "us-east-1",
          minio.Call.BucketExists "my_bucket"]⟩) ∧
    New (fake.env (fake.canned (some ⟨"Access Denied."⟩) (false, none)))
        "us-east-1/my_bucket?ssl=true" ⟨(), []⟩ =
      (.error (errors.New "could not create bucket and bucket does not exist, please check permissions"),
        ⟨(), [minio.Call.New "" "" "" true, minio.Call.MakeBucket "my_bucket" "us-east-1",
          minio.Call.BucketExists "my_bucket"]⟩) :=
  ⟨(New_provisioning (fake.env fake.client) "us-east-1/my_bucket?ssl=true"
      ⟨"", none, "", "us-east-1/my_bucket", fake.sslTrue⟩ ⟨fake.ObjectStore.empty, []⟩
      "us-east-1" "my_bucket" fake.client (by rfl) (by decide) (by decide) (by decide)
      (by decide) (by rfl) none ⟨["my_bucket"], fake.ObjectStore.empty.objects⟩ (by rfl)
      true none ⟨["my_bucket"], fake.ObjectStore.empty.objects⟩ (by rfl)).1 rfl,
    (New_provisioning (fake.env fake.client) "us-east-1/my_bucket?ssl=true"
      ⟨"", none, "", "us-east-1/my_bucket", fake.sslTrue⟩
      ⟨⟨["my_bucket"], fake.ObjectStore.empty.objects⟩, []⟩
      "us-east-1" "my_bucket" fake.client (by rfl) (by decide) (by decide) (by decide)
      (by decide) (by rfl)
      (some ⟨"Your previous request to create the named bucket succeeded and you already own it."⟩)
      ⟨["my_bucket"], fake.ObjectStore.empty.objects⟩ (by rfl)
      true none ⟨["my_bucket"], fake.ObjectStore.empty.objects⟩ (by rfl)).2.1
      (by simp) rfl rfl,
    (New_provisioning
      (fake.env (fake.canned (some ⟨"Access Denied."⟩) (true, some ⟨"connection refused"⟩)))
      "us-east-1/my_bucket?ssl=true"
      ⟨"", none, "", "us-east-1/my_bucket", fake.sslTrue⟩ ⟨(), []⟩
      "us-east-1" "my_bucket" _ (by rfl) (by decide) (by decide) (by decide)
      (by decide) (by rfl) (some ⟨"Access Denied."⟩) () (by rfl)
      true (some ⟨"connection refused"⟩) () (by rfl)).2.2.1 (by simp) _ rfl,
    (New_provisioning (fake.env (fake.canned (some ⟨"Access Denied."⟩) (false, none)))
      "us-east-1/my_bucket?ssl=true"
      ⟨"", none, "", "us-east-1/my_bucket", fake.sslTrue⟩ ⟨(), []⟩
      "us-east-1" "my_bucket" _ (by rfl) (by decide) (by decide) (by decide)
      (by decide) (by rfl) (some ⟨"Access Denied."⟩) () (by rfl)
      false none () (by rfl)).2.2.2 (by simp) rfl rfl⟩

/-- C7: every `minio.New` call that `New` makes for a parsed URI carries a TLS
flag that is true exactly when the first value of the query parameter `ssl` is
the string `true` (so false when `ssl` is absent, empty or anything else), and
`New` does make that call, with that flag, host and credentials, whenever it
accepts the path. -/
theorem New_useSSL {σ : Type} (env : Env σ) (uri : String) (u : url.URL) (w : World σ)
    (hp : env.url_Parse uri = .ok u) :
    (∃ made, (New env uri w).2.calls = w.calls ++ made ∧
      ∀ endpoint accessKeyID secretAccessKey secure,
        minio.Call.New endpoint accessKeyID secretAccessKey secure ∈ made →
        (secure = true ↔ (u.Query "ssl").head? = some "true")) ∧
    (∀ loc rest : String, u.Path = loc ++ "/" ++ rest → '/' ∉ loc.data → loc ≠ "" → rest ≠ "" →
      ∃ more, (New env uri w).2.calls =
        w.calls ++ minio.Call.New u.Host (url.Userinfo.Username u.User)
          (url.Userinfo.Password u.User).1 (decide ((u.Query "ssl").head? = some "true")) ::
          more) := by
  have hflag : decide (url.Values.Get u.Query "ssl" = "true") =
      decide ((u.Query "ssl").head? = some "true") := by
    simp only [Values_Get_eq_true]
  have hacc : ∀ loc rest : String, u.Path = loc ++ "/" ++ rest → '/' ∉ loc.data → loc ≠ "" →
      rest ≠ "" → ∃ more, (New env uri w).2.calls =
        w.calls ++ minio.Call.New u.Host (url.Userinfo.Username u.User)
          (url.Userinfo.Password u.User).1 (decide ((u.Query "ssl").head? = some "true")) ::
          more ∧ ∀ endpoint accessKeyID secretAccessKey secure,
            minio.Call.New endpoint accessKeyID secretAccessKey secure ∉ more := by
    intro loc rest hpath hs hl hr
    obtain ⟨more, hm, hmore⟩ := New_calls_of_accepted env uri u w loc rest hp hpath hs hl hr
    rw [hflag] at hm
    refine ⟨more, hm, ?_⟩
    intro e a s f hmem
    rcases hmore with h | h | h <;> simp [h] at hmem
  constructor
  · rcases strings.path_cases u.Path with hn | ⟨loc, rest, hpath, hs⟩
    · exact ⟨[], by simp [New_of_no_slash env uri u w hp hn]⟩
    · by_cases hl : loc = ""
      · exact ⟨[], by simp [New_of_slash env uri u w loc rest hp hpath hs, hl]⟩
      · by_cases hr : rest = ""
        · exact ⟨[], by simp [New_of_slash env uri u w loc rest hp hpath hs, hl, hr]⟩
        · obtain ⟨more, hm, hmore⟩ := hacc loc rest hpath hs hl hr
          refine ⟨_, hm, ?_⟩
          intro e a s f hmem
          rcases List.mem_cons.1 hmem with h | h
          · injection h with _ _ _ h4
            rw [h4]
            simp
          · exact absurd h (hmore e a s f)
  · intro loc rest hpath hs hl hr
    obtain ⟨more, hm, -⟩ := hacc loc rest hpath hs hl hr
    exact ⟨more, hm⟩

/-- C7 on `us-east-1/my_bucket?ssl=true`: the client is built with the TLS flag
set. -/
theorem New_useSSL_witness :
    ∃ more, (New (fake.env fake.client) "us-east-1/my_bucket?ssl=true"
      ⟨fake.ObjectStore.empty, []⟩).2.calls = minio.Call.New "" "" "" true :: more :=
  (New_useSSL (fake.env fake.client) "us-east-1/my_bucket?ssl=true"
    ⟨"", none, "", "us-east-1/my_bucket", fake.sslTrue⟩ ⟨fake.ObjectStore.empty, []⟩
    (by rfl)).2 "us-east-1" "my_bucket" (by decide) (by decide) (by decide) (by decide)

/-- C5: `InsertLog` makes one call, `PutObjectWithContext` with the context it
was given, the bucket of the store, the object name `"/" + appName + "/" +
callID`, the stream it was given, length `-1` and content type `text/plain`,
and returns the error of that call as it is (nil exactly when the call returned
nil). -/
theorem InsertLog_put {σ : Type} (s : store σ) (ctx : context.Context)
    (appName callID : String) (callLog : io.Reader) (w : World σ) :
    (s.InsertLog ctx appName callID callLog w).2.calls = w.calls ++
      [minio.Call.PutObjectWithContext ctx s.bucket ("/" ++ appName ++ "/" ++ callID) callLog
        (-1) ⟨"text/plain"⟩] ∧
    (s.InsertLog ctx appName callID callLog w).1 =
      (s.client.PutObjectWithContext ctx s.bucket ("/" ++ appName ++ "/" ++ callID) callLog
        (-1) ⟨"text/plain"⟩ w.remote).1.2 ∧
    (s.InsertLog ctx appName callID callLog w).2.remote =
      (s.client.PutObjectWithContext ctx s.bucket ("/" ++ appName ++ "/" ++ callID) callLog
        (-1) ⟨"text/plain"⟩ w.remote).2 ∧
    ((s.InsertLog ctx appName callID callLog w).1 = none ↔
      (s.client.PutObjectWithContext ctx s.bucket ("/" ++ appName ++ "/" ++ callID) callLog
        (-1) ⟨"text/plain"⟩ w.remote).1.2 = none) :=
  ⟨rfl, rfl, rfl, Iff.rfl⟩

/-- C6: `GetLog` makes one call, `GetObjectWithContext` with the context it was
given, the bucket of the store and the object name `"/" + appName + "/" +
callID`, and returns the (stream, error) pair of that call as it is; so when
the client answers with no stream and an error (the object does not exist),
that is what `GetLog` returns. -/
theorem GetLog_get {σ : Type} (s : store σ) (ctx : context.Context)
    (appName callID : String) (w : World σ) :
    (s.GetLog ctx appName callID w).2.calls = w.calls ++
      [minio.Call.GetObjectWithContext ctx s.bucket ("/" ++ appName ++ "/" ++ callID) {}] ∧
    (s.GetLog ctx appName callID w).1 =
      (s.client.GetObjectWithContext ctx s.bucket ("/" ++ appName ++ "/" ++ callID) {}
        w.remote).1 ∧
    (s.GetLog ctx appName callID w).2.remote =
      (s.client.GetObjectWithContext ctx s.bucket ("/" ++ appName ++ "/" ++ callID) {}
        w.remote).2 ∧
    (∀ err : GoError,
      (s.client.GetObjectWithContext ctx s.bucket ("/" ++ appName ++ "/" ++ callID) {}
        w.remote).1 = (none, some err) →
      (s.GetLog ctx appName callID w).1 = (none, some err)) :=
  ⟨rfl, rfl, rfl, fun _ h => h⟩

/-- C6 on a service that holds no object: `GetLog` for a pair that was never
inserted returns the not-found error of the client and no stream. -/
theorem GetLog_get_witness :
    ((⟨fake.client, "my_bucket"⟩ : store fake.ObjectStore).GetLog ⟨false⟩ "app" "call"
      ⟨fake.ObjectStore.empty, []⟩).1 = (none, some ⟨"The specified key does not exist."⟩) :=
  (GetLog_get ⟨fake.client, "my_bucket"⟩ ⟨false⟩ "app" "call"
    ⟨fake.ObjectStore.empty, []⟩).2.2.2 ⟨"The specified key does not exist."⟩ rfl

theorem path_data (appName callID : String) :
    (path appName callID).data = '/' :: (appName.data ++ '/' :: callID.data) := by
  have h1 : ("/" : String).data = ['/'] := rfl
  simp [path, String.data_append, h1]

/-- What the map-backed client holds at a key after `InsertLog`. -/
theorem InsertLog_objects (bucket : String) (ctx : context.Context) (appName callID : String)
    (b : io.Reader) (w : World fake.ObjectStore) (bucket2 key : String) :
    ((⟨fake.client, bucket⟩ : store fake.ObjectStore).InsertLog ctx appName callID b
      w).2.remote.objects bucket2 key =
      if bucket2 = bucket ∧ key = path appName callID then some b
      else w.remote.objects bucket2 key := rfl

/-- What `GetLog` returns over the map-backed client. -/
theorem GetLog_objects (bucket : String) (ctx : context.Context) (appName callID : String)
    (w : World fake.ObjectStore) :
    ((⟨fake.client, bucket⟩ : store fake.ObjectStore).GetLog ctx appName callID w).1 =
      match w.remote.objects bucket (path appName callID) with
      | some bytes => (some bytes, none)
      | none => (none, some ⟨"The specified key does not exist."⟩) := by
  simp only [store.GetLog, World.GetObjectWithContext, fake.client]
  split <;> simp_all

/-- C3: over the object store modelled as a map from (bucket, key) to bytes,
whose put succeeds, `InsertLog` of the bytes `b` for (appName, callID) returns
no error, and `GetLog` for the same pair on the same store then returns no
error and a stream whose bytes are `b`; the put and the get were addressed to
the same bucket and the same key `path appName callID`. -/
theorem InsertLog_GetLog_roundtrip (bucket : String) (ctx ctx2 : context.Context)
    (appName callID : String) (b : io.Reader) (w : World fake.ObjectStore) :
    ((⟨fake.client, bucket⟩ : store fake.ObjectStore).InsertLog ctx appName callID b w).1 = none ∧
    ((⟨fake.client, bucket⟩ : store fake.ObjectStore).GetLog ctx2 appName callID
      ((⟨fake.client, bucket⟩ : store fake.ObjectStore).InsertLog ctx appName callID b w).2).1 =
        (some b, none) ∧
    ((⟨fake.client, bucket⟩ : store fake.ObjectStore).GetLog ctx2 appName callID
      ((⟨fake.client, bucket⟩ : store fake.ObjectStore).InsertLog ctx appName callID b w).2).2.calls =
        w.calls ++
          [minio.Call.PutObjectWithContext ctx bucket (path appName callID) b (-1) ⟨"text/plain"⟩,
           minio.Call.GetObjectWithContext ctx2 bucket (path appName callID) {}] := by
  refine ⟨rfl, ?_, ?_⟩
  · rw [GetLog_objects, InsertLog_objects]
    simp
  · simp [store.GetLog, store.InsertLog, World.GetObjectWithContext,
      World.PutObjectWithContext, contentType]

/-- C8: `path` does no escaping and is not injective: the two distinct pairs
(`a/b`, `c`) and (`a`, `b/c`) both map to the key `/a/b/c`, so over the
map-backed store a log inserted for one pair is what `GetLog` returns for the
other, and a later insert for the one replaces what was stored for the other. -/
theorem path_collision :
    path "a/b" "c" = "/a/b/c" ∧ path "a" "b/c" = "/a/b/c" ∧
    (("a/b", "c") : String × String) ≠ ("a", "b/c") ∧
    (∀ (bucket : String) (ctx ctx2 : context.Context) (b : io.Reader)
        (w : World fake.ObjectStore),
      ((⟨fake.client, bucket⟩ : store fake.ObjectStore).GetLog ctx2 "a" "b/c"
        ((⟨fake.client, bucket⟩ : store fake.ObjectStore).InsertLog ctx "a/b" "c" b w).2).1 =
          (some b, none)) ∧
    (∀ (bucket : String) (ctx ctx2 ctx3 : context.Context) (b1 b2 : io.Reader)
        (w : World fake.ObjectStore),
      ((⟨fake.client, bucket⟩ : store fake.ObjectStore).GetLog ctx3 "a" "b/c"
        ((⟨fake.client, bucket⟩ : store fake.ObjectStore).InsertLog ctx2 "a/b" "c" b2
          ((⟨fake.client, bucket⟩ : store fake.ObjectStore).InsertLog ctx "a" "b/c" b1 w).2).2).1 =
          (some b2, none)) := by
  have h1 : path "a/b" "c" = "/a/b/c" := by decide
  have h2 : path "a" "b/c" = "/a/b/c" := by decide
  refine ⟨h1, h2, by decide, ?_, ?_⟩
  · intro bucket ctx ctx2 b w
    rw [GetLog_objects, InsertLog_objects, h1, h2]
    simp
  · intro bucket ctx ctx2 ctx3 b1 b2 w
    rw [GetLog_objects, InsertLog_objects, h1, h2]
    simp

/-- C10: on application names that contain no `/`, `path` is injective in the
pair (the call IDs may contain `/`): equal keys come from equal pairs.  So over
the map-backed store an `InsertLog` for one such pair leaves what `GetLog`
returns for a different such pair as it was. -/
theorem path_injective (appName1 appName2 callID1 callID2 : String)
    (h1 : '/' ∉ appName1.data) (h2 : '/' ∉ appName2.data) :
    (path appName1 callID1 = path appName2 callID2 → appName1 = appName2 ∧ callID1 = callID2) ∧
    ((appName1, callID1) ≠ (appName2, callID2) →
      ∀ (bucket : String) (ctx ctx2 : context.Context) (b : io.Reader)
        (w : World fake.ObjectStore),
        ((⟨fake.client, bucket⟩ : store fake.ObjectStore).GetLog ctx2 appName2 callID2
          ((⟨fake.client, bucket⟩ : store fake.ObjectStore).InsertLog ctx appName1 callID1 b
            w).2).1 =
        ((⟨fake.client, bucket⟩ : store fake.ObjectStore).GetLog ctx2 appName2 callID2 w).1) := by
  have inj : path appName1 callID1 = path appName2 callID2 →
      appName1 = appName2 ∧ callID1 = callID2 := by
    intro h
    have hd := congrArg String.data h
    rw [path_data, path_data] at hd
    have hd2 := List.tail_eq_of_cons_eq hd
    have := strings.append_slash_inj h1 h2 hd2
    exact ⟨String.ext this.1, String.ext this.2⟩
  refine ⟨inj, ?_⟩
  intro hne bucket ctx ctx2 b w
  rw [GetLog_objects, InsertLog_objects, GetLog_objects]
  have hk : path appName2 callID2 ≠ path appName1 callID1 := by
    intro e
    have := inj e.symm
    exact hne (by rw [this.1, this.2])
  simp [hk]

/-- C10 on the pairs (`app`, `x/y`) and (`app`, `x`): equal keys force equal
pairs, and a log inserted for the first does not show up under the second. -/
theorem path_injective_witness :
    (path "app" "x/y" = path "app" "x/y" → "app" = "app" ∧ "x/y" = "x/y") ∧
    ((⟨fake.client, "my_bucket"⟩ : store fake.ObjectStore).GetLog ⟨false⟩ "app" "x"
      ((⟨fake.client, "my_bucket"⟩ : store fake.ObjectStore).InsertLog ⟨false⟩ "app" "x/y" [1, 2]
        ⟨fake.ObjectStore.empty, []⟩).2).1 =
      ((⟨fake.client, "my_bucket"⟩ : store fake.ObjectStore).GetLog ⟨false⟩ "app" "x"
        ⟨fake.ObjectStore.empty, []⟩).1 :=
  ⟨(path_injective "app" "app" "x/y" "x/y" (by decide) (by decide)).1,
    (path_injective "app" "app" "x/y" "x" (by decide) (by decide)).2 (by decide)
      "my_bucket" ⟨false⟩ ⟨false⟩ [1, 2] ⟨fake.ObjectStore.empty, []⟩⟩

end s3
